import Mathlib

/-!
# Body encoding of `elastic.Request`

A shallow embedding of `request.go`: the four methods `SetBody`, `setBodyJson`,
`setBodyString` and `setBodyReader`, over explicit models of the standard-library
objects they drive (`http.Header`, `io.Reader`, `io.Copy`, `gzip.Writer`,
`bytes.Buffer`, `json.Marshal`) and of the `defer` statement.

The compression and serialization libraries are parameters (`Gzip`, `Json`); the
properties they are assumed to have are stated as hypotheses (`Gzip.Lawful`,
`Gzip.Reliable`).  `storedGzip` and `sampleJson` are concrete instances.
-/

namespace Elastic

/-! ## Data model -/

/-- One octet. -/
abbrev Byte := Fin 256

/-- A byte sequence: a Go `string`, a `[]byte`, or the contents of a `bytes.Buffer`. -/
abbrev Bytes := List Byte

/-- A Go `error` value; the nil error is `none : Option Error`. -/
abbrev Error := String

/-- The `http.Header` map, as an association list from canonical key to values. -/
structure HTTPHeader where
  entries : List (String × List String)
deriving DecidableEq

/-- Go `Header.Set`: the values of `key` are replaced by the single `value`. The keys
used by `request.go` are already in canonical form. -/
def HTTPHeader.Set (h : HTTPHeader) (key value : String) : HTTPHeader :=
  ⟨(key, [value]) :: h.entries.filter (fun kv => kv.1 != key)⟩

/-- Go `Header.Get`: the first value of `key`, or the empty string. -/
def HTTPHeader.Get (h : HTTPHeader) (key : String) : String :=
  match h.entries.find? (fun kv => kv.1 == key) with
  | some (_, v :: _) => v
  | _ => ""

/-- The fields of `Request` (an `http.Request`) that `request.go` reads or writes.
`Body` is the byte sequence readable from the body stream, `none` for a nil body. -/
structure Request where
  Header : HTTPHeader
  Body : Option Bytes
  ContentLength : Int
deriving DecidableEq

/-- A non-nil `io.Reader`, by what it does when drained: the data of the successive
reads, how the stream ends (`none` for `io.EOF`, `some e` for a read error), and
whether its dynamic type also implements `io.Closer`. -/
structure Reader where
  chunks : List Bytes
  fail : Option Error
  closer : Bool
deriving DecidableEq

/-- All the data a reader delivers. -/
def Reader.contents (rd : Reader) : Bytes := rd.chunks.flatten

/-- Go `strings.NewReader`: an in-memory reader, not a closer; `io.Copy` drains it with
one `Write` of the whole string, and none for the empty string. -/
def stringsNewReader (s : Bytes) : Reader :=
  { chunks := if s.isEmpty then [] else [s], fail := none, closer := false }

/-- Go `bytes.NewReader`: as `strings.NewReader`, over a byte slice. -/
def bytesNewReader (b : Bytes) : Reader :=
  { chunks := if b.isEmpty then [] else [b], fail := none, closer := false }

/-- A Go `interface{}` value as `SetBody` can tell it apart: the nil interface, a
`string`, a value whose dynamic type implements `io.Reader`, or any other value. -/
inductive Value (α : Type) where
  | nil
  | string (s : Bytes)
  | reader (rd : Reader)
  | other (v : α)
deriving DecidableEq

/-! ## Library models -/

/-- The `compress/gzip` library. `member p` is the finalized gzip stream a writer
leaves in its sink for payload `p`; `gunzip` is the decoder. `writeFault` and
`closeFault` say when the compressor reports an error: on the `Write` that would bring
the accepted payload to the argument, and on the first `Close` over that payload. -/
structure Gzip where
  member : Bytes → Bytes
  gunzip : Bytes → Option Bytes
  writeFault : Bytes → Option Error
  closeFault : Bytes → Option Error

/-- Decoding inverts encoding. -/
def Gzip.Lawful (lib : Gzip) : Prop := ∀ p, lib.gunzip (lib.member p) = some p

/-- The compressor never reports an error, as when its sink is a `bytes.Buffer`. -/
def Gzip.Reliable (lib : Gzip) : Prop := ∀ p, lib.writeFault p = none ∧ lib.closeFault p = none

/-- The `encoding/json` library on the values of `Value α`. -/
structure Json (α : Type) where
  Marshal : Value α → Except Error Bytes
  Unmarshal : Bytes → Option (Value α)

/-- The state of a `gzip.Writer`: the payload accepted so far (which determines its
size, digest and compressor state), and the `closed` and `err` fields. -/
structure Writer where
  payload : Bytes
  closed : Bool
  err : Option Error
deriving DecidableEq

/-- Go `gzip.NewWriter`. -/
def NewWriter : Writer := { payload := [], closed := false, err := none }

/-- Go `(*gzip.Writer).Write`: a sticky error is returned again; otherwise the bytes go
to the compressor, which holds its output back until `Close`. -/
def Writer.Write (lib : Gzip) (z : Writer) (p : Bytes) : Writer × Option Error :=
  match z.err with
  | some e => (z, some e)
  | none =>
    match lib.writeFault (z.payload ++ p) with
    | some e => ({ z with err := some e }, some e)
    | none => ({ z with payload := z.payload ++ p }, none)

/-- Go `(*gzip.Writer).Close` over the sink `buf`: a sticky error is returned again, a
closed writer does nothing, and otherwise the writer is marked closed and the stream
is finalized into the sink. -/
def Writer.Close (lib : Gzip) (z : Writer) (buf : Bytes) : Writer × Bytes × Option Error :=
  match z.err with
  | some e => (z, buf, some e)
  | none =>
    if z.closed then (z, buf, none)
    else
      match lib.closeFault z.payload with
      | some e => ({ z with closed := true, err := some e }, buf, some e)
      | none => ({ z with closed := true }, buf ++ lib.member z.payload, none)

/-- Go `io.Copy(gw, body)`: each chunk read is written to the writer, the first write
error stops the copy, and a read error other than `io.EOF` is returned at the end. -/
def ioCopy (lib : Gzip) (z : Writer) : List Bytes → Option Error → Writer × Option Error
  | [], fail => (z, fail)
  | p :: ps, fail =>
    match z.Write lib p with
    | (z1, some e) => (z1, some e)
    | (z1, none) => ioCopy lib z1 ps fail

/-! ## The methods of `request.go` -/

/-- What a call leaves behind: the request after the call, the returned error, and the
number of `Close` calls the input stream received during the call. -/
structure Outcome where
  req : Request
  err : Option Error
  inputCloses : Nat
deriving DecidableEq

/-- The calls `setBodyReader` defers. -/
inductive Deferred where
  | inputClose
  | gzipClose
deriving DecidableEq

/-- The state of one activation of `setBodyReader`: the request, the local `buf`, the
local `gw` once created, whether `r.Body` is the view of `&buf`, and the `Close`
calls made on the input so far. -/
structure Call where
  r : Request
  buf : Bytes
  gw : Option Writer
  bodyIsBuf : Bool
  inputCloses : Nat
deriving DecidableEq

/-- Running one deferred call. The error `Close` returns is dropped, as `defer` does. -/
def runDeferred (lib : Gzip) (c : Call) : Deferred → Call
  | .inputClose => { c with inputCloses := c.inputCloses + 1 }
  | .gzipClose =>
    match c.gw with
    | none => c
    | some z =>
      match z.Close lib c.buf with
      | (z1, buf1, _) => { c with gw := some z1, buf := buf1 }

/-- Leaving `setBodyReader` with `err`: the deferred calls run, last deferred first, and
the installed body, being a view of `&buf`, reads what `buf` holds afterwards. -/
def Call.ret (lib : Gzip) (c : Call) (deferred : List Deferred) (err : Option Error) : Outcome :=
  let c1 := deferred.foldl (runDeferred lib) c
  { req := if c1.bodyIsBuf then { c1.r with Body := some c1.buf } else c1.r
    err := err
    inputCloses := c1.inputCloses }

/-- Lines 87-89 of `setBodyReader`: `r.Body = ioutil.NopCloser(&buf)`,
`r.ContentLength = int64(buf.Len())`, `return nil`. -/
def Call.commit (lib : Gzip) (c : Call) (deferred : List Deferred) : Outcome :=
  Call.ret lib
    { c with bodyIsBuf := true, r := { c.r with ContentLength := Int.ofNat c.buf.length } }
    deferred none

/-- Go `setBodyReader`; `body = none` is the nil `io.Reader`. -/
def setBodyReader (lib : Gzip) (r : Request) (body : Option Reader) : Outcome :=
  let c0 : Call := { r := r, buf := [], gw := none, bodyIsBuf := false, inputCloses := 0 }
  match body with
  | none => c0.commit lib []
  | some rd =>
    -- if c, ok := body.(io.Closer); ok { defer c.Close() }
    let d0 : List Deferred := if rd.closer then [Deferred.inputClose] else []
    -- gw := gzip.NewWriter(&buf); defer gw.Close()
    let d1 := Deferred.gzipClose :: d0
    match ioCopy lib NewWriter rd.chunks rd.fail with
    | (z1, some e) => Call.ret lib { c0 with gw := some z1 } d1 (some e)
    | (z1, none) =>
      match z1.Close lib c0.buf with
      | (z2, buf2, some e) => Call.ret lib { c0 with gw := some z2, buf := buf2 } d1 (some e)
      | (z2, buf2, none) =>
        Call.commit lib
          { c0 with
            gw := some z2, buf := buf2,
            r := { r with Header := r.Header.Set "Content-Encoding" "gzip" } }
          d1

/-- Go `setBodyString`. -/
def setBodyString (lib : Gzip) (r : Request) (body : Bytes) : Outcome :=
  setBodyReader lib r (some (stringsNewReader body))

/-- Line 54 of `setBodyJson`: `r.Header.Set("Content-Type", "application/json")`. -/
def Request.withJsonContentType (r : Request) : Request :=
  { r with Header := r.Header.Set "Content-Type" "application/json" }

/-- Go `setBodyJson`: the result of `r.setBodyReader(...)` is not looked at, and the
method returns nil after it. -/
def setBodyJson {α : Type} (lib : Gzip) (json : Json α) (r : Request) (data : Value α) : Outcome :=
  match json.Marshal data with
  | .error e => { req := r, err := some e, inputCloses := 0 }
  | .ok body =>
    { setBodyReader lib r.withJsonContentType (some (bytesNewReader body)) with err := none }

/-- Go `SetBody`: a `string` goes to `setBodyString`, every other value to `setBodyJson`. -/
def SetBody {α : Type} (lib : Gzip) (json : Json α) (r : Request) (body : Value α) : Outcome :=
  match body with
  | .string b => setBodyString lib r b
  | _ => setBodyJson lib json r body

/-! ## Concrete libraries -/

/-- Little-endian encoding in two bytes, of the value modulo `2^16`. -/
def le16 (n : Nat) : Bytes := [Fin.ofNat n, Fin.ofNat (n / 256)]

/-- Little-endian encoding in four bytes, of the value modulo `2^32`. -/
def le32 (n : Nat) : Bytes :=
  [Fin.ofNat n, Fin.ofNat (n / 256), Fin.ofNat (n / 65536), Fin.ofNat (n / 16777216)]

/-- One bit of the CRC-32 shift register (reflected polynomial `0xEDB88320`). -/
def crcStep (c : Nat) : Nat := if c % 2 = 1 then (c / 2) ^^^ 0xEDB88320 else c / 2

/-- Feeding one byte to the CRC-32 register. -/
def crcByte (c : Nat) (b : Byte) : Nat := crcStep^[8] (c ^^^ b.val)

/-- The IEEE CRC-32 of a byte sequence, as in the gzip trailer. -/
def crc32 (p : Bytes) : Nat := (p.foldl crcByte 0xFFFFFFFF) ^^^ 0xFFFFFFFF

/-- The ten-byte gzip header: magic `1f 8b`, method 8 (deflate), no flags, no
modification time, no extra flags, operating system 255 (unknown). -/
def gzipHeader : Bytes := [0x1f, 0x8b, 8, 0, 0, 0, 0, 0, 0, 0xff]

/-- A DEFLATE stream of stored blocks for `p`: a block is its header byte (1 for
the final block, 0 otherwise), the length and its complement in two bytes each, and at
most 65535 bytes of data. The first argument bounds the number of blocks. -/
def storedBlocks : Nat → Bytes → Bytes
  | 0, _ => []
  | fuel + 1, p =>
    if p.length ≤ 65535 then
      1 :: (le16 p.length ++ le16 (65535 - p.length) ++ p)
    else
      0 :: (le16 65535 ++ le16 0 ++ p.take 65535) ++ storedBlocks fuel (p.drop 65535)

/-- Decoding a DEFLATE stream of stored blocks: the payload and the bytes that follow
the final block. The first argument bounds the number of blocks read. -/
def inflateStored : Nat → Bytes → Option (Bytes × Bytes)
  | 0, _ => none
  | fuel + 1, hd :: l0 :: l1 :: n0 :: n1 :: rest =>
    let len := l0.val + 256 * l1.val
    let nlen := n0.val + 256 * n1.val
    if len + nlen = 65535 ∧ len ≤ rest.length then
      if hd = 1 then some (rest.take len, rest.drop len)
      else if hd = 0 then
        match inflateStored fuel (rest.drop len) with
        | some (q, tail) => some (rest.take len ++ q, tail)
        | none => none
      else none
    else none
  | _ + 1, _ => none

/-- A gzip member (RFC 1952) for `p`: header, stored DEFLATE blocks, CRC-32 and size. -/
def gzipStored (p : Bytes) : Bytes :=
  gzipHeader ++ storedBlocks (p.length + 1) p ++ (le32 (crc32 p) ++ le32 p.length)

/-- The decoder for `gzipStored`: the header, the blocks, and the trailer are checked. -/
def gunzipStored (b : Bytes) : Option Bytes :=
  if b.take 10 = gzipHeader then
    match inflateStored b.length (b.drop 10) with
    | some (p, trailer) =>
      if trailer = le32 (crc32 p) ++ le32 p.length then some p else none
    | none => none
  else none

/-- A conforming gzip library that compresses nothing and never fails. -/
def storedGzip : Gzip :=
  { member := gzipStored, gunzip := gunzipStored,
    writeFault := fun _ => none, closeFault := fun _ => none }

/-- Two Go values that are neither nil, nor strings, nor readers: the map
`map[string]interface{}` with the one entry `q: foo`, and a channel. -/
inductive Sample where
  | fooQuery
  | channel
deriving DecidableEq

/-- The JSON text `null`. -/
def jsonNull : Bytes := [110, 117, 108, 108]

/-- The JSON text of an object with no members, an opening and a closing brace. -/
def jsonEmptyObject : Bytes := [123, 125]

/-- The JSON text of the object with the one member `q`, whose value is the string `foo`. -/
def jsonFooQuery : Bytes := [123, 34, 113, 34, 58, 34, 102, 111, 111, 34, 125]

/-- What `json.Marshal` returns on a few values: `null` for nil, the empty object for
a reader such as `*strings.Reader`, `*bytes.Buffer` or `*os.File` (structs without
exported fields), the object text for the map, and an error for a channel. Strings, which `SetBody` never hands to `json.Marshal`,
are not covered. -/
def sampleMarshal : Value Sample → Except Error Bytes
  | .nil => .ok jsonNull
  | .reader _ => .ok jsonEmptyObject
  | .other .fooQuery => .ok jsonFooQuery
  | .other .channel => .error "json: unsupported type: chan int"
  | .string _ => .error "sample: strings are not covered"

/-- What `json.Unmarshal` into an `interface{}` gives back on the texts above. -/
def sampleUnmarshal (b : Bytes) : Option (Value Sample) :=
  if b = jsonNull then some .nil
  else if b = jsonFooQuery then some (.other .fooQuery)
  else none

/-- A fragment of `encoding/json`. -/
def sampleJson : Json Sample := { Marshal := sampleMarshal, Unmarshal := sampleUnmarshal }

/-- The bytes of the string `hello`. -/
def hello : Bytes := [104, 101, 108, 108, 111]

/-- A request as `NewRequest` leaves it, with a plain-text content type instead. -/
def plainRequest : Request :=
  { Header := ⟨[("Content-Type", ["text/plain"]), ("Accept", ["application/json"])]⟩
    Body := none
    ContentLength := 0 }

/-- A reader over a file-like resource: it delivers `hello` in two reads and is a closer. -/
def fileReader : Reader := { chunks := [[104, 101], [108, 108, 111]], fail := none, closer := true }

/-- A closer whose second read fails. -/
def brokenReader : Reader :=
  { chunks := [[104, 101]], fail := some "read: connection reset", closer := true }

/-! # Theorems -/

set_option maxRecDepth 100000

/-! ## The gzip writer and `io.Copy` -/

theorem Writer.Write_ok {lib : Gzip} {z z1 : Writer} {p : Bytes}
    (h : z.Write lib p = (z1, none)) :
    z1 = { z with payload := z.payload ++ p } ∧ lib.writeFault (z.payload ++ p) = none := by
  unfold Writer.Write at h
  split at h
  · simp at h
  · split at h
    · simp at h
    · next hw => simp at h; exact ⟨h.symm, hw⟩

theorem ioCopy_ok {lib : Gzip} : ∀ (ps : List Bytes) {z z1 : Writer} {fail : Option Error},
    ioCopy lib z ps fail = (z1, none) →
      z1 = { z with payload := z.payload ++ ps.flatten } ∧ fail = none
  | [], z, z1, fail, h => by
    simp [ioCopy] at h
    simp [h.1.symm, h.2]
  | p :: ps, z, z1, fail, h => by
    unfold ioCopy at h
    split at h
    · simp at h
    · next z2 hw =>
      obtain ⟨hz2, -⟩ := Writer.Write_ok hw
      obtain ⟨hz1, hf⟩ := ioCopy_ok ps h
      subst hz2
      simp [hz1, hf]

theorem ioCopy_reliable {lib : Gzip} (hrel : lib.Reliable) :
    ∀ (ps : List Bytes) (z : Writer) (fail : Option Error), z.err = none →
      ioCopy lib z ps fail = ({ z with payload := z.payload ++ ps.flatten }, fail)
  | [], z, fail, _ => by simp [ioCopy]
  | p :: ps, z, fail, hz => by
    have hw : z.Write lib p = ({ z with payload := z.payload ++ p }, none) := by
      simp [Writer.Write, hz, (hrel (z.payload ++ p)).1]
    unfold ioCopy
    rw [hw]
    simp only
    rw [ioCopy_reliable hrel ps _ fail (by simpa using hz)]
    simp

theorem Writer.Close_again {lib : Gzip} {z z1 : Writer} {buf buf1 : Bytes}
    (h : z.Close lib buf = (z1, buf1, none)) : z1.Close lib buf1 = (z1, buf1, none) := by
  unfold Writer.Close at h
  split at h
  · simp at h
  · next he =>
    split at h
    · next hc =>
      simp at h
      obtain ⟨rfl, rfl⟩ := h
      simp [Writer.Close, he, hc]
    · split at h
      · simp at h
      · simp at h
        obtain ⟨rfl, rfl⟩ := h
        simp [Writer.Close, he]

/-! ## `setBodyReader` -/

theorem setBodyReader_nil (lib : Gzip) (r : Request) :
    setBodyReader lib r none =
      { req := { r with Body := some [], ContentLength := 0 }, err := none, inputCloses := 0 } := by
  simp [setBodyReader, Call.commit, Call.ret]

theorem setBodyReader_some (lib : Gzip) (r : Request) (rd : Reader) :
    (∃ e, setBodyReader lib r (some rd) =
        { req := r, err := some e, inputCloses := if rd.closer then 1 else 0 }) ∨
    setBodyReader lib r (some rd) =
      { req :=
          { Header := r.Header.Set "Content-Encoding" "gzip"
            Body := some (lib.member rd.contents)
            ContentLength := Int.ofNat (lib.member rd.contents).length }
        err := none
        inputCloses := if rd.closer then 1 else 0 } := by
  unfold setBodyReader
  simp only
  rcases hc : ioCopy lib NewWriter rd.chunks rd.fail with ⟨z1, _ | e⟩
  · obtain ⟨hz1, -⟩ := ioCopy_ok rd.chunks hc
    rcases hk : z1.Close lib [] with ⟨z2, buf2, _ | e⟩
    · right
      have hagain := Writer.Close_again hk
      have hbuf : buf2 = lib.member rd.contents := by
        subst hz1
        simp [Writer.Close, NewWriter] at hk
        split at hk
        · simp at hk
        · simp at hk
          simp [Reader.contents, hk.2.symm]
      subst hbuf
      cases hcl : rd.closer <;>
        simp [hk, Call.commit, Call.ret, runDeferred, hagain]
    · left
      refine ⟨e, ?_⟩
      cases hcl : rd.closer <;>
        simp [hk, Call.ret, runDeferred]
  · left
    refine ⟨e, ?_⟩
    cases hcl : rd.closer <;>
      simp [Call.ret, runDeferred]

/-! ## The stored-block gzip library is lawful and reliable -/

theorem le16_val (n : Nat) (h : n ≤ 65535) :
    ∃ a b : Byte, le16 n = [a, b] ∧ a.val + 256 * b.val = n := by
  refine ⟨Fin.ofNat n, Fin.ofNat (n / 256), rfl, ?_⟩
  show n % 256 + 256 * (n / 256 % 256) = n
  omega

theorem inflateStored_block (g : Nat) (hd a b c d : Byte) (rest : Bytes)
    (h : a.val + 256 * b.val + (c.val + 256 * d.val) = 65535)
    (hlen : a.val + 256 * b.val ≤ rest.length) :
    inflateStored (g + 1) (hd :: a :: b :: c :: d :: rest) =
      if hd = 1 then some (rest.take (a.val + 256 * b.val), rest.drop (a.val + 256 * b.val))
      else if hd = 0 then
        match inflateStored g (rest.drop (a.val + 256 * b.val)) with
        | some (q, tail) => some (rest.take (a.val + 256 * b.val) ++ q, tail)
        | none => none
      else none := by
  simp only [inflateStored]
  rw [if_pos ⟨h, hlen⟩]

theorem inflateStored_storedBlocks : ∀ (f : Nat) (p t : Bytes) (g : Nat),
    p.length ≤ 65535 * (f + 1) → (storedBlocks (f + 1) p ++ t).length ≤ g →
      inflateStored g (storedBlocks (f + 1) p ++ t) = some (p, t) := by
  intro f
  induction f with
  | zero =>
    intro p t g hp hg
    have hp1 : p.length ≤ 65535 := by omega
    obtain ⟨a, b, hab, habv⟩ := le16_val p.length hp1
    obtain ⟨c, d, hcd, hcdv⟩ := le16_val (65535 - p.length) (by omega)
    simp only [storedBlocks, if_pos hp1, hab, hcd] at hg ⊢
    obtain ⟨g, rfl⟩ : ∃ k, g = k + 1 := ⟨g - 1, by simp at hg; omega⟩
    simp only [List.cons_append, List.nil_append, List.append_assoc]
    rw [inflateStored_block g 1 a b c d (p ++ t) (by omega) (by simp; omega)]
    simp [habv]
  | succ f ih =>
    intro p t g hp hg
    by_cases hp1 : p.length ≤ 65535
    · obtain ⟨a, b, hab, habv⟩ := le16_val p.length hp1
      obtain ⟨c, d, hcd, hcdv⟩ := le16_val (65535 - p.length) (by omega)
      rw [storedBlocks] at hg ⊢
      simp only [if_pos hp1, hab, hcd] at hg ⊢
      obtain ⟨g, rfl⟩ : ∃ k, g = k + 1 := ⟨g - 1, by simp at hg; omega⟩
      simp only [List.cons_append, List.nil_append, List.append_assoc]
      rw [inflateStored_block g 1 a b c d (p ++ t) (by omega) (by simp; omega)]
      simp [habv]
    · obtain ⟨a, b, hab, habv⟩ := le16_val 65535 (by omega)
      obtain ⟨c, d, hcd, hcdv⟩ := le16_val 0 (by omega)
      rw [storedBlocks] at hg ⊢
      simp only [if_neg hp1, hab, hcd] at hg ⊢
      obtain ⟨g, rfl⟩ : ∃ k, g = k + 1 := ⟨g - 1, by simp at hg; omega⟩
      simp only [List.cons_append, List.nil_append, List.append_assoc] at hg ⊢
      have htake : (p.take 65535).length = 65535 := by simp; omega
      rw [inflateStored_block g 0 a b c d _ (by omega) (by simp; omega)]
      have hdrop : (List.take 65535 p ++ (storedBlocks (f + 1) (List.drop 65535 p) ++ t)).drop
          (a.val + 256 * b.val) = storedBlocks (f + 1) (List.drop 65535 p) ++ t := by
        rw [habv, List.drop_append_of_le_length (by omega)]
        simp [List.drop_eq_nil_of_le, htake]
      have htk : (List.take 65535 p ++ (storedBlocks (f + 1) (List.drop 65535 p) ++ t)).take
          (a.val + 256 * b.val) = List.take 65535 p := by
        rw [habv, List.take_append_of_le_length (by omega)]
        simp [List.take_take]
      rw [hdrop, htk, ih (p.drop 65535) t g (by simp; omega) (by simp at hg ⊢; omega)]
      simp

theorem gunzipStored_gzipStored (p : Bytes) : gunzipStored (gzipStored p) = some p := by
  unfold gunzipStored gzipStored
  have h10 : gzipHeader.length = 10 := rfl
  have htake : (gzipHeader ++ storedBlocks (p.length + 1) p ++ (le32 (crc32 p) ++ le32 p.length)).take 10
      = gzipHeader := by
    rw [List.append_assoc, ← h10, List.take_left]
  have hdrop : (gzipHeader ++ storedBlocks (p.length + 1) p ++ (le32 (crc32 p) ++ le32 p.length)).drop 10
      = storedBlocks (p.length + 1) p ++ (le32 (crc32 p) ++ le32 p.length) := by
    rw [List.append_assoc, ← h10, List.drop_left]
  rw [htake, hdrop, if_pos rfl,
    inflateStored_storedBlocks p.length p _ _ (by omega) (by simp)]
  simp

theorem storedGzip_lawful : storedGzip.Lawful := gunzipStored_gzipStored

theorem storedGzip_reliable : storedGzip.Reliable := fun _ => ⟨rfl, rfl⟩

/-! ## Headers -/

theorem HTTPHeader.Get_Set_same (h : HTTPHeader) (k v : String) : (h.Set k v).Get k = v := by
  simp [HTTPHeader.Get, HTTPHeader.Set]

theorem HTTPHeader.Get_Set_other (h : HTTPHeader) (k k2 v : String) (hk : k ≠ k2) :
    (h.Set k v).Get k2 = h.Get k2 := by
  have hpred : (fun a : String × List String => decide ((a.1 != k) = true ∧ (a.1 == k2) = true))
      = fun a => a.1 == k2 := by
    funext a
    by_cases ha : a.1 = k2
    · subst ha
      simp [Ne.symm hk]
    · simp [ha]
  have hhead : ((k, [v]).1 == k2) = false := by simpa using hk
  unfold HTTPHeader.Get HTTPHeader.Set
  simp only [List.find?_cons, hhead, List.find?_filter, hpred]

/-! ## Consequences of the characterisation of `setBodyReader` -/

theorem stringsNewReader_contents (s : Bytes) : (stringsNewReader s).contents = s := by
  cases s <;> simp [stringsNewReader, Reader.contents]

theorem bytesNewReader_contents (b : Bytes) : (bytesNewReader b).contents = b := by
  cases b <;> simp [bytesNewReader, Reader.contents]

theorem setBodyReader_ok {lib : Gzip} {r : Request} {rd : Reader}
    (h : (setBodyReader lib r (some rd)).err = none) :
    (setBodyReader lib r (some rd)).req =
      { Header := r.Header.Set "Content-Encoding" "gzip"
        Body := some (lib.member rd.contents)
        ContentLength := Int.ofNat (lib.member rd.contents).length } := by
  rcases setBodyReader_some lib r rd with ⟨e, he⟩ | hok
  · rw [he] at h
    simp at h
  · rw [hok]

theorem setBodyReader_fail {lib : Gzip} {r : Request} {body : Option Reader} {e : Error}
    (h : (setBodyReader lib r body).err = some e) : (setBodyReader lib r body).req = r := by
  cases body with
  | none => simp [setBodyReader_nil] at h
  | some rd =>
    rcases setBodyReader_some lib r rd with ⟨e1, he⟩ | hok
    · rw [he]
    · rw [hok] at h
      simp at h

theorem setBodyReader_closes (lib : Gzip) (r : Request) (rd : Reader) :
    (setBodyReader lib r (some rd)).inputCloses = if rd.closer then 1 else 0 := by
  rcases setBodyReader_some lib r rd with ⟨e1, he⟩ | hok
  · rw [he]
  · rw [hok]

theorem setBodyReader_reliable {lib : Gzip} (hrel : lib.Reliable) (r : Request) (rd : Reader)
    (hf : rd.fail = none) : (setBodyReader lib r (some rd)).err = none := by
  unfold setBodyReader
  simp only
  rw [ioCopy_reliable hrel rd.chunks NewWriter rd.fail rfl, hf]
  simp [Writer.Close, NewWriter, (hrel _).2, Call.commit, Call.ret]

theorem setBodyReader_err_reliable {lib : Gzip} (hrel : lib.Reliable) (r : Request) (rd : Reader) :
    (setBodyReader lib r (some rd)).err = rd.fail := by
  unfold setBodyReader
  simp only
  rw [ioCopy_reliable hrel rd.chunks NewWriter rd.fail rfl]
  cases hf : rd.fail with
  | some e => simp [Call.ret]
  | none => simp [Writer.Close, NewWriter, (hrel _).2, Call.commit, Call.ret]

theorem setBodyJson_ok {α : Type} (lib : Gzip) (json : Json α) (r : Request) (v : Value α)
    (j : Bytes) (hm : json.Marshal v = .ok j) :
    setBodyJson lib json r v =
      { setBodyReader lib r.withJsonContentType (some (bytesNewReader j)) with err := none } := by
  simp [setBodyJson, hm]

theorem setBodyJson_error {α : Type} (lib : Gzip) (json : Json α) (r : Request) (v : Value α)
    (e : Error) (hm : json.Marshal v = .error e) :
    setBodyJson lib json r v = { req := r, err := some e, inputCloses := 0 } := by
  simp [setBodyJson, hm]

theorem SetBody_string {α : Type} (lib : Gzip) (json : Json α) (r : Request) (s : Bytes) :
    SetBody lib json r (.string s) = setBodyReader lib r (some (stringsNewReader s)) := rfl

theorem SetBody_other {α : Type} (lib : Gzip) (json : Json α) (r : Request) (v : Value α)
    (hv : ∀ s, v ≠ .string s) : SetBody lib json r v = setBodyJson lib json r v := by
  cases v with
  | string s => exact absurd rfl (hv s)
  | _ => rfl

theorem SetBody_reliable {α : Type} {lib : Gzip} (hrel : lib.Reliable) (json : Json α)
    (r : Request) (v : Value α) (hok : (SetBody lib json r v).err = none) :
    ∃ p, (SetBody lib json r v).req.Body = some (lib.member p) ∧
      (SetBody lib json r v).req.ContentLength = Int.ofNat (lib.member p).length ∧
      (SetBody lib json r v).req.Header.Get "Content-Encoding" = "gzip" := by
  by_cases hv : ∀ s, v ≠ .string s
  · rw [SetBody_other lib json r v hv] at hok ⊢
    cases hm : json.Marshal v with
    | error e => simp [setBodyJson_error lib json r v e hm] at hok
    | ok j =>
      rw [setBodyJson_ok lib json r v j hm]
      have hstage := setBodyReader_reliable hrel r.withJsonContentType (bytesNewReader j) rfl
      refine ⟨(bytesNewReader j).contents, ?_⟩
      simp [setBodyReader_ok hstage, HTTPHeader.Get_Set_same]
  · obtain ⟨s, rfl⟩ : ∃ s, v = .string s := by
      by_contra hne
      exact hv fun s hs => hne ⟨s, hs⟩
    rw [SetBody_string] at hok ⊢
    refine ⟨(stringsNewReader s).contents, ?_⟩
    simp [setBodyReader_ok hok, HTTPHeader.Get_Set_same]

theorem SetBody_structured {α : Type} {lib : Gzip} (hrel : lib.Reliable) (json : Json α)
    (r : Request) (v : Value α) (j : Bytes) (hv : ∀ s, v ≠ .string s)
    (hm : json.Marshal v = .ok j) :
    SetBody lib json r v =
      { req :=
          { Header := (r.Header.Set "Content-Type" "application/json").Set "Content-Encoding" "gzip"
            Body := some (lib.member j)
            ContentLength := Int.ofNat (lib.member j).length }
        err := none
        inputCloses := 0 } := by
  rw [SetBody_other lib json r v hv, setBodyJson_ok lib json r v j hm]
  have hstage := setBodyReader_reliable hrel r.withJsonContentType (bytesNewReader j) rfl
  have hreq := setBodyReader_ok hstage
  have hcl := setBodyReader_closes lib r.withJsonContentType (bytesNewReader j)
  rw [bytesNewReader_contents] at hreq
  simp only [hreq, hcl]
  rfl

/-! ## The claims -/

/-- C1: whenever `setBodyReader` returns no error, for a nil stream and for a stream of
any contents, the `ContentLength` it leaves is the number of bytes of the installed
`Body` as it reads after the deferred calls have run, and for a stream that body is the
gzip member of the contents, not the contents; the same holds of `SetBody` on every
value, strings and structured values, over a compressor that does not fail. -/
theorem C1_content_length_is_installed_body_length {α : Type} (lib : Gzip) (json : Json α)
    (r : Request) :
    (∀ body : Option Reader, (setBodyReader lib r body).err = none →
      ∃ b, (setBodyReader lib r body).req.Body = some b ∧
        (setBodyReader lib r body).req.ContentLength = Int.ofNat b.length ∧
        ∀ rd, body = some rd → b = lib.member rd.contents) ∧
    (lib.Reliable → ∀ v : Value α, (SetBody lib json r v).err = none →
      ∃ b, (SetBody lib json r v).req.Body = some b ∧
        (SetBody lib json r v).req.ContentLength = Int.ofNat b.length ∧
        ∃ p, b = lib.member p) := by
  refine ⟨?_, ?_⟩
  · intro body hok
    cases body with
    | none => exact ⟨[], by simp [setBodyReader_nil]⟩
    | some rd =>
      refine ⟨lib.member rd.contents, ?_⟩
      simp [setBodyReader_ok hok]
  · intro hrel v hok
    obtain ⟨p, hb, hl, -⟩ := SetBody_reliable hrel json r v hok
    exact ⟨lib.member p, hb, hl, p, rfl⟩

/-- The witness of C1: a nil stream, a stream over `hello`, the string `hello` (28
bytes installed for 5 bytes of payload) and a structured value. -/
theorem C1_witness :
    (∃ b, (setBodyReader storedGzip plainRequest none).req.Body = some b ∧
        (setBodyReader storedGzip plainRequest none).req.ContentLength = Int.ofNat b.length ∧
        ∀ rd, (none : Option Reader) = some rd → b = storedGzip.member rd.contents) ∧
    (∃ b, (setBodyReader storedGzip plainRequest (some fileReader)).req.Body = some b ∧
        (setBodyReader storedGzip plainRequest (some fileReader)).req.ContentLength
          = Int.ofNat b.length ∧
        ∀ rd, some fileReader = some rd → b = storedGzip.member rd.contents) ∧
    (∃ b, (SetBody storedGzip sampleJson plainRequest (.string hello)).req.Body = some b ∧
        (SetBody storedGzip sampleJson plainRequest (.string hello)).req.ContentLength
          = Int.ofNat b.length ∧
        ∃ p, b = storedGzip.member p) ∧
    (SetBody storedGzip sampleJson plainRequest (.string hello)).req.ContentLength = 28 ∧
    (∃ b, (SetBody storedGzip sampleJson plainRequest (.other .fooQuery)).req.Body = some b ∧
        (SetBody storedGzip sampleJson plainRequest (.other .fooQuery)).req.ContentLength
          = Int.ofNat b.length ∧
        ∃ p, b = storedGzip.member p) :=
  ⟨(C1_content_length_is_installed_body_length storedGzip sampleJson plainRequest).1 none
      (by decide),
    (C1_content_length_is_installed_body_length storedGzip sampleJson plainRequest).1
      (some fileReader) (by decide),
    (C1_content_length_is_installed_body_length storedGzip sampleJson plainRequest).2
      storedGzip_reliable (.string hello) (by decide),
    by decide,
    (C1_content_length_is_installed_body_length storedGzip sampleJson plainRequest).2
      storedGzip_reliable (.other .fooQuery) (by decide)⟩

/-- C2: for every string `T`, over a lawful gzip library, `SetBody(T)` installs a body
whose decompression is exactly `T` whenever it returns no error, and it returns no
error when the compressor does not fail. -/
theorem C2_string_body_round_trips {α : Type} (lib : Gzip) (json : Json α) (r : Request)
    (T : Bytes) (hlaw : lib.Lawful) :
    (lib.Reliable → (SetBody lib json r (.string T)).err = none) ∧
    ((SetBody lib json r (.string T)).err = none →
      (SetBody lib json r (.string T)).req.Body.bind lib.gunzip = some T) := by
  refine ⟨fun hrel => ?_, fun hok => ?_⟩
  · exact setBodyReader_reliable hrel r (stringsNewReader T) rfl
  · rw [SetBody_string] at hok ⊢
    simp [setBodyReader_ok hok, stringsNewReader_contents, hlaw T]

/-- The witness of C2: the string `hello` and the empty string over the stored-block
gzip library. -/
theorem C2_witness :
    ((SetBody storedGzip sampleJson plainRequest (.string hello)).err = none ∧
      (SetBody storedGzip sampleJson plainRequest (.string hello)).req.Body.bind
        storedGzip.gunzip = some hello) ∧
    ((SetBody storedGzip sampleJson plainRequest (.string [])).err = none ∧
      (SetBody storedGzip sampleJson plainRequest (.string [])).req.Body.bind
        storedGzip.gunzip = some []) :=
  ⟨⟨(C2_string_body_round_trips storedGzip sampleJson plainRequest hello storedGzip_lawful).1
        storedGzip_reliable,
      (C2_string_body_round_trips storedGzip sampleJson plainRequest hello storedGzip_lawful).2
        (by decide)⟩,
    ⟨(C2_string_body_round_trips storedGzip sampleJson plainRequest [] storedGzip_lawful).1
        storedGzip_reliable,
      (C2_string_body_round_trips storedGzip sampleJson plainRequest [] storedGzip_lawful).2
        (by decide)⟩⟩

/-- C3: for every value `V` that is not a string and that `json.Marshal` serializes to
the text `j`, over a lawful gzip library whose compressor does not fail, `SetBody(V)`
returns no error, leaves `Content-Type` equal to `application/json`, and installs a body
whose decompression is `j`, the JSON text of `V`; so that whenever that text parses back
to `V`, the decompressed body parses back to `V`. -/
theorem C3_structured_body_is_json {α : Type} (lib : Gzip) (json : Json α) (r : Request)
    (V : Value α) (j : Bytes) (hv : ∀ s, V ≠ .string s) (hm : json.Marshal V = .ok j)
    (hlaw : lib.Lawful) (hrel : lib.Reliable) :
    (SetBody lib json r V).err = none ∧
    (SetBody lib json r V).req.Header.Get "Content-Type" = "application/json" ∧
    (SetBody lib json r V).req.Body.bind lib.gunzip = some j ∧
    (json.Unmarshal j = some V →
      ((SetBody lib json r V).req.Body.bind lib.gunzip).bind json.Unmarshal = some V) := by
  rw [SetBody_structured hrel json r V j hv hm]
  refine ⟨rfl, ?_, ?_, ?_⟩
  · rw [HTTPHeader.Get_Set_other _ _ _ _ (by decide), HTTPHeader.Get_Set_same]
  · simp [hlaw j]
  · intro hparse
    simp [hlaw j, hparse]

/-- The witness of C3: the map with the one entry `q: foo`, whose text parses back to
it, and a stream value, whose text `sampleJson` does not parse back. -/
theorem C3_witness :
    ((SetBody storedGzip sampleJson plainRequest (.other .fooQuery)).err = none ∧
      (SetBody storedGzip sampleJson plainRequest (.other .fooQuery)).req.Header.Get
        "Content-Type" = "application/json" ∧
      (SetBody storedGzip sampleJson plainRequest (.other .fooQuery)).req.Body.bind
        storedGzip.gunzip = some jsonFooQuery ∧
      ((SetBody storedGzip sampleJson plainRequest (.other .fooQuery)).req.Body.bind
        storedGzip.gunzip).bind sampleJson.Unmarshal = some (.other .fooQuery)) ∧
    ((SetBody storedGzip sampleJson plainRequest (.reader fileReader)).err = none ∧
      (SetBody storedGzip sampleJson plainRequest (.reader fileReader)).req.Header.Get
        "Content-Type" = "application/json" ∧
      (SetBody storedGzip sampleJson plainRequest (.reader fileReader)).req.Body.bind
        storedGzip.gunzip = some jsonEmptyObject) :=
  have hq := C3_structured_body_is_json storedGzip sampleJson plainRequest (.other .fooQuery)
    jsonFooQuery (by intro s h; cases h) rfl storedGzip_lawful storedGzip_reliable
  have hs := C3_structured_body_is_json storedGzip sampleJson plainRequest (.reader fileReader)
    jsonEmptyObject (by intro s h; cases h) rfl storedGzip_lawful storedGzip_reliable
  ⟨⟨hq.1, hq.2.1, hq.2.2.1, hq.2.2.2 (by decide)⟩, hs.1, hs.2.1, hs.2.2.1⟩

/-- C4, refuted as stated: for a nil input stream `setBodyReader` returns no error and
the `Content-Encoding` header is not `gzip` afterwards. -/
theorem C4_counterexample :
    (setBodyReader storedGzip plainRequest none).err = none ∧
    (setBodyReader storedGzip plainRequest none).req.Header.Get "Content-Encoding" ≠ "gzip" := by
  decide

/-- C4, amended: `Content-Encoding` is `gzip` after every call of `setBodyReader` on a
stream that is not nil and that returns no error, and after every call of `SetBody`
that returns no error over a compressor that does not fail, for every string, the empty
one included, and every structured value; for a nil stream `setBodyReader` returns no
error and leaves the headers as they were. -/
theorem C4_content_encoding_set_for_present_stream {α : Type} (lib : Gzip) (json : Json α)
    (r : Request) :
    (∀ rd : Reader, (setBodyReader lib r (some rd)).err = none →
      (setBodyReader lib r (some rd)).req.Header.Get "Content-Encoding" = "gzip") ∧
    (lib.Reliable → ∀ v : Value α, (SetBody lib json r v).err = none →
      (SetBody lib json r v).req.Header.Get "Content-Encoding" = "gzip") ∧
    ((setBodyReader lib r none).err = none ∧
      (setBodyReader lib r none).req.Header = r.Header) := by
  refine ⟨?_, ?_, ?_⟩
  · intro rd hok
    simp [setBodyReader_ok hok, HTTPHeader.Get_Set_same]
  · intro hrel v hok
    obtain ⟨p, -, -, hce⟩ := SetBody_reliable hrel json r v hok
    exact hce
  · simp [setBodyReader_nil]

/-- The witness of C4 as amended: a stream, the empty string and a structured value. -/
theorem C4_witness :
    (setBodyReader storedGzip plainRequest (some fileReader)).req.Header.Get
      "Content-Encoding" = "gzip" ∧
    (SetBody storedGzip sampleJson plainRequest (.string [])).req.Header.Get
      "Content-Encoding" = "gzip" ∧
    (SetBody storedGzip sampleJson plainRequest (.other .fooQuery)).req.Header.Get
      "Content-Encoding" = "gzip" :=
  ⟨(C4_content_encoding_set_for_present_stream storedGzip sampleJson plainRequest).1
      fileReader (by decide),
    (C4_content_encoding_set_for_present_stream storedGzip sampleJson plainRequest).2.1
      storedGzip_reliable (.string []) (by decide),
    (C4_content_encoding_set_for_present_stream storedGzip sampleJson plainRequest).2.1
      storedGzip_reliable (.other .fooQuery) (by decide)⟩

/-- C5, refuted as stated: for a nil reader the installed body is the empty byte
sequence, which is no gzip frame, and for a nil body `SetBody` installs a frame that
does not decompress to zero bytes. -/
theorem C5_counterexample :
    ¬ ((setBodyReader storedGzip plainRequest none).req.Body.bind storedGzip.gunzip = some []) ∧
    ¬ ((SetBody storedGzip sampleJson plainRequest .nil).req.Body.bind storedGzip.gunzip
        = some []) := by
  decide

/-- C5, amended: over a lawful gzip library whose compressor does not fail, the empty
string gives a body that is a gzip frame decompressing to zero bytes; a nil body given
to `SetBody` is serialized like any other value, and the body decompresses to its JSON
text; a nil reader given to `setBodyReader` gives a body of zero bytes, no frame at
all, a `ContentLength` of zero and unchanged headers. -/
theorem C5_empty_and_absent_bodies {α : Type} (lib : Gzip) (json : Json α) (r : Request)
    (hlaw : lib.Lawful) (hrel : lib.Reliable) :
    ((SetBody lib json r (.string [])).err = none ∧
      (SetBody lib json r (.string [])).req.Body.bind lib.gunzip = some []) ∧
    (∀ j, json.Marshal .nil = .ok j →
      (SetBody lib json r .nil).err = none ∧
      (SetBody lib json r .nil).req.Body.bind lib.gunzip = some j) ∧
    ((setBodyReader lib r none).err = none ∧
      (setBodyReader lib r none).req.Body = some [] ∧
      (setBodyReader lib r none).req.ContentLength = 0 ∧
      (setBodyReader lib r none).req.Header = r.Header) := by
  refine ⟨?_, ?_, ?_⟩
  · have hok : (SetBody lib json r (.string [])).err = none :=
      setBodyReader_reliable hrel r (stringsNewReader []) rfl
    refine ⟨hok, ?_⟩
    rw [SetBody_string] at hok ⊢
    simp [setBodyReader_ok hok, stringsNewReader_contents, hlaw []]
  · intro j hm
    rw [SetBody_structured hrel json r .nil j (by intro s h; cases h) hm]
    simp [hlaw j]
  · simp [setBodyReader_nil]

/-- The witness of C5 as amended: the JSON text of nil is `null`, four bytes. -/
theorem C5_witness :
    ((SetBody storedGzip sampleJson plainRequest (.string [])).err = none ∧
      (SetBody storedGzip sampleJson plainRequest (.string [])).req.Body.bind
        storedGzip.gunzip = some []) ∧
    ((SetBody storedGzip sampleJson plainRequest .nil).err = none ∧
      (SetBody storedGzip sampleJson plainRequest .nil).req.Body.bind storedGzip.gunzip
        = some jsonNull) :=
  ⟨(C5_empty_and_absent_bodies storedGzip sampleJson plainRequest storedGzip_lawful
      storedGzip_reliable).1,
    (C5_empty_and_absent_bodies storedGzip sampleJson plainRequest storedGzip_lawful
      storedGzip_reliable).2.1 jsonNull rfl⟩

/-- C6: for every value that is not a string and whose serialization fails with the
error `e`, `SetBody` returns `e` and leaves the request, headers, body and content
length, as it was. -/
theorem C6_serialization_error_leaves_request {α : Type} (lib : Gzip) (json : Json α)
    (r : Request) (V : Value α) (e : Error) (hv : ∀ s, V ≠ .string s)
    (hm : json.Marshal V = .error e) :
    (SetBody lib json r V).err = some e ∧ (SetBody lib json r V).req = r := by
  rw [SetBody_other lib json r V hv, setBodyJson_error lib json r V e hm]
  exact ⟨rfl, rfl⟩

/-- The witness of C6: a channel, which `json.Marshal` rejects. -/
theorem C6_witness :
    (SetBody storedGzip sampleJson plainRequest (.other .channel)).err
      = some "json: unsupported type: chan int" ∧
    (SetBody storedGzip sampleJson plainRequest (.other .channel)).req = plainRequest :=
  C6_serialization_error_leaves_request storedGzip sampleJson plainRequest (.other .channel)
    "json: unsupported type: chan int" (by intro s h; cases h) rfl

/-- C7, refuted as stated: given a stream whose contents are `hello`, `SetBody`
installs a body that decompresses to the JSON text of the stream value, not to
`hello`, and changes `Content-Type`. -/
theorem C7_counterexample :
    (SetBody storedGzip sampleJson plainRequest (.reader fileReader)).req.Body.bind
      storedGzip.gunzip = some jsonEmptyObject ∧
    (SetBody storedGzip sampleJson plainRequest (.reader fileReader)).req.Body.bind
      storedGzip.gunzip ≠ some fileReader.contents ∧
    (SetBody storedGzip sampleJson plainRequest (.reader fileReader)).req.Header.Get
      "Content-Type" ≠ plainRequest.Header.Get "Content-Type" := by
  decide

/-- C7, amended: over a lawful gzip library whose compressor does not fail, `SetBody`
treats a stream like any value that is not a string, so for a stream that
`json.Marshal` serializes to `j` it returns no error, sets `Content-Type` to
`application/json` and installs a body decompressing to `j`; it is `setBodyReader` that
uses a stream directly, and for a stream read without error it returns no error,
installs a body decompressing to the contents, and leaves `Content-Type` as it was. -/
theorem C7_stream_direct_only_in_setBodyReader {α : Type} (lib : Gzip) (json : Json α)
    (r : Request) (rd : Reader) (j : Bytes) (hlaw : lib.Lawful) (hrel : lib.Reliable)
    (hm : json.Marshal (.reader rd) = .ok j) (hf : rd.fail = none) :
    ((SetBody lib json r (.reader rd)).err = none ∧
      (SetBody lib json r (.reader rd)).req.Header.Get "Content-Type" = "application/json" ∧
      (SetBody lib json r (.reader rd)).req.Body.bind lib.gunzip = some j) ∧
    ((setBodyReader lib r (some rd)).err = none ∧
      (setBodyReader lib r (some rd)).req.Body.bind lib.gunzip = some rd.contents ∧
      (setBodyReader lib r (some rd)).req.Header.Get "Content-Type"
        = r.Header.Get "Content-Type") := by
  refine ⟨?_, ?_⟩
  · rw [SetBody_structured hrel json r (.reader rd) j (by intro s h; cases h) hm]
    refine ⟨rfl, ?_, ?_⟩
    · rw [HTTPHeader.Get_Set_other _ _ _ _ (by decide), HTTPHeader.Get_Set_same]
    · simp [hlaw j]
  · have hok := setBodyReader_reliable hrel r rd hf
    refine ⟨hok, ?_, ?_⟩
    · simp [setBodyReader_ok hok, hlaw rd.contents]
    · rw [setBodyReader_ok hok]
      exact HTTPHeader.Get_Set_other _ _ _ _ (by decide)

/-- The witness of C7 as amended: a stream over `hello`. -/
theorem C7_witness :
    ((SetBody storedGzip sampleJson plainRequest (.reader fileReader)).err = none ∧
      (SetBody storedGzip sampleJson plainRequest (.reader fileReader)).req.Header.Get
        "Content-Type" = "application/json" ∧
      (SetBody storedGzip sampleJson plainRequest (.reader fileReader)).req.Body.bind
        storedGzip.gunzip = some jsonEmptyObject) ∧
    ((setBodyReader storedGzip plainRequest (some fileReader)).err = none ∧
      (setBodyReader storedGzip plainRequest (some fileReader)).req.Body.bind
        storedGzip.gunzip = some fileReader.contents ∧
      (setBodyReader storedGzip plainRequest (some fileReader)).req.Header.Get "Content-Type"
        = plainRequest.Header.Get "Content-Type") :=
  C7_stream_direct_only_in_setBodyReader storedGzip sampleJson plainRequest fileReader
    jsonEmptyObject storedGzip_lawful storedGzip_reliable rfl rfl

/-- C8: for every input stream that is a closer, `setBodyReader` closes it exactly once
before it returns, whatever the library does and however the call ends. -/
theorem C8_input_closed_exactly_once (lib : Gzip) (r : Request) (rd : Reader)
    (hc : rd.closer = true) : (setBodyReader lib r (some rd)).inputCloses = 1 := by
  rw [setBodyReader_closes, if_pos hc]

/-- The witness of C8: a call that succeeds and a call whose copy is ended by a read
error, both on a stream that is a closer. -/
theorem C8_witness :
    ((setBodyReader storedGzip plainRequest (some fileReader)).err = none ∧
      (setBodyReader storedGzip plainRequest (some fileReader)).inputCloses = 1) ∧
    ((setBodyReader storedGzip plainRequest (some brokenReader)).err
        = some "read: connection reset" ∧
      (setBodyReader storedGzip plainRequest (some brokenReader)).inputCloses = 1) :=
  ⟨⟨by decide, C8_input_closed_exactly_once storedGzip plainRequest fileReader rfl⟩,
    ⟨by decide, C8_input_closed_exactly_once storedGzip plainRequest brokenReader rfl⟩⟩

/-- C9: no error is swallowed. For every library, the error `SetBody` returns on a
string is the error the compression stage returned. Over a compressor that does not
fail, which is what a gzip writer over the local `bytes.Buffer` is, the compression
stage returns exactly the error that ended its input stream, and on the structured
path, where `setBodyJson` returns nil after the stage, the stage fed from memory has
returned nil as well: the error `SetBody` returns is again the error of the stage. -/
theorem C9_stage_error_reaches_caller {α : Type} (lib : Gzip) (json : Json α) (r : Request) :
    (∀ s : Bytes, (SetBody lib json r (.string s)).err
      = (setBodyReader lib r (some (stringsNewReader s))).err) ∧
    (lib.Reliable → ∀ rd : Reader, (setBodyReader lib r (some rd)).err = rd.fail) ∧
    (lib.Reliable → ∀ (v : Value α) (j : Bytes), (∀ s, v ≠ .string s) →
      json.Marshal v = .ok j →
      (SetBody lib json r v).err
        = (setBodyReader lib r.withJsonContentType (some (bytesNewReader j))).err) := by
  refine ⟨fun s => rfl, fun hrel rd => setBodyReader_err_reliable hrel r rd, ?_⟩
  intro hrel v j hv hm
  rw [setBodyReader_err_reliable hrel, SetBody_structured hrel json r v j hv hm]
  rfl

/-- The witness of C9: a string and a structured value, for which the stage and
`SetBody` both return nil, and a stream whose read error the stage returns. -/
theorem C9_witness :
    (SetBody storedGzip sampleJson plainRequest (.string hello)).err
      = (setBodyReader storedGzip plainRequest (some (stringsNewReader hello))).err ∧
    (setBodyReader storedGzip plainRequest (some brokenReader)).err
      = some "read: connection reset" ∧
    (SetBody storedGzip sampleJson plainRequest (.other .fooQuery)).err
      = (setBodyReader storedGzip plainRequest.withJsonContentType
          (some (bytesNewReader jsonFooQuery))).err :=
  ⟨(C9_stage_error_reaches_caller storedGzip sampleJson plainRequest).1 hello,
    (C9_stage_error_reaches_caller storedGzip sampleJson plainRequest).2.1
      storedGzip_reliable brokenReader,
    (C9_stage_error_reaches_caller storedGzip sampleJson plainRequest).2.2
      storedGzip_reliable (.other .fooQuery) jsonFooQuery (by intro s h; cases h) rfl⟩

/-- C10: failed encodes are atomic. For every library, when the compression stage
`setBodyReader` returns an error, for a failed read, a failed write or a failed
`Close`, the request it leaves is the request before the call, headers, body and
content length; so is the request `SetBody` leaves on a string whose stage fails; so
is, over a compressor that does not fail, the request `SetBody` leaves on a structured
value whose stage fails; and every call of `SetBody` that returns an error leaves the
request as it was. -/
theorem C10_failed_compression_leaves_request {α : Type} (lib : Gzip) (json : Json α)
    (r : Request) :
    (∀ (body : Option Reader) (e : Error), (setBodyReader lib r body).err = some e →
      (setBodyReader lib r body).req = r) ∧
    (∀ (s : Bytes) (e : Error),
      (setBodyReader lib r (some (stringsNewReader s))).err = some e →
      (SetBody lib json r (.string s)).req = r) ∧
    (lib.Reliable → ∀ (v : Value α) (j : Bytes) (e : Error), (∀ s, v ≠ .string s) →
      json.Marshal v = .ok j →
      (setBodyReader lib r.withJsonContentType (some (bytesNewReader j))).err = some e →
      (SetBody lib json r v).req = r) ∧
    (∀ (v : Value α) (e : Error), (SetBody lib json r v).err = some e →
      (SetBody lib json r v).req = r) := by
  refine ⟨?_, ?_, ?_, ?_⟩
  · intro body e h
    exact setBodyReader_fail h
  · intro s e h
    exact setBodyReader_fail h
  · intro hrel v j e hv hm h
    rw [setBodyReader_err_reliable hrel] at h
    exact absurd h (by simp [bytesNewReader])
  · intro v e h
    by_cases hv : ∀ s, v ≠ .string s
    · rw [SetBody_other lib json r v hv] at h ⊢
      cases hm : json.Marshal v with
      | error e1 => rw [setBodyJson_error lib json r v e1 hm]
      | ok j => simp [setBodyJson_ok lib json r v j hm] at h
    · obtain ⟨s, rfl⟩ : ∃ s, v = .string s := by
        by_contra hne
        exact hv fun s hs => hne ⟨s, hs⟩
      exact setBodyReader_fail h

/-- The witness of C10: a stream whose read fails, and a structured value whose
serialization fails. -/
theorem C10_witness :
    ((setBodyReader storedGzip plainRequest (some brokenReader)).err
        = some "read: connection reset" ∧
      (setBodyReader storedGzip plainRequest (some brokenReader)).req = plainRequest) ∧
    (SetBody storedGzip sampleJson plainRequest (.other .channel)).req = plainRequest :=
  ⟨⟨by decide,
      (C10_failed_compression_leaves_request storedGzip sampleJson plainRequest).1
        (some brokenReader) "read: connection reset" (by decide)⟩,
    (C10_failed_compression_leaves_request storedGzip sampleJson plainRequest).2.2.2
      (.other .channel) "json: unsupported type: chan int" (by decide)⟩

end Elastic
